import Mathlib

/-!
Shallow embedding of the vibration-motor driver scripts
(`driver-vib/test.py`, `driver-vib/test2.py`, `driver-vib-udp/test.py`,
`driver-vib-udp/vib-test-1.py`) and proofs about their behaviour.

Serial input is modelled as the list of (already stripped) lines that the
successive `ser.readline()` calls of a polling loop return before its
deadline passes; an exhausted list means the deadline passed.  Serial
output is modelled as the list of command lines handed to the port.
Wall-clock timestamps are modelled as rationals.
-/

/-- A Python exception escaping one of the scripts. -/
inductive PyErr where
  /-- `TimeoutError` raised by an acknowledgement-waiting loop. -/
  | timeout
  /-- `RuntimeError` raised by `cmd_expect_ok` for command `line`
      answered by `resp`. -/
  | runtimeError (line resp : String)
deriving DecidableEq, Repr

/-- A timed serial event: a command line sent, or a `time.sleep`. -/
inductive Ev where
  | send (line : String)
  | sleep (ms : Nat)
deriving DecidableEq, Repr

/-- A low-level operation on the serial port, as issued by `send_line`. -/
inductive SerialOp where
  | write (data : String)
  | flush
deriving DecidableEq, Repr

/-- Python `str.strip()` on a character list: drop leading and trailing
whitespace. -/
def pyStripList (l : List Char) : List Char :=
  ((l.dropWhile Char.isWhitespace).reverse.dropWhile Char.isWhitespace).reverse

/-- Python `str.strip()`. -/
def pyStrip (s : String) : String :=
  String.mk (pyStripList s.toList)

/-- Python `s.startswith(pre)`. -/
def pyStartsWith (s pre : String) : Bool :=
  pre.toList.isPrefixOf s.toList

/-- Contiguous-substring test on character lists (Python `sub in s`). -/
def listInfixB (pat : List Char) : List Char → Bool
  | [] => pat.isEmpty
  | c :: t => pat.isPrefixOf (c :: t) || listInfixB pat t

/-- Python `sub in s` (substring containment). -/
def pyIn (sub s : String) : Bool :=
  listInfixB sub.toList s.toList

/-- The command lines appearing in `Ev.send` events of a trace. -/
def sends (t : List Ev) : List String :=
  t.filterMap fun e =>
    match e with
    | Ev.send s => some s
    | Ev.sleep _ => none

namespace AckScript

/-!  `driver-vib/test.py`: every command carries an ` id=<n>` suffix and the
script waits for a matching `ACK`/`ERR` line. -/

/-- The predicate of the acknowledgement-waiting loop of
`send_cmd_wait_ack`: the stripped line contains `id=<cmd_id>` and starts
with `ACK` or `ERR`. -/
def ackMatch (cmd_id : Nat) (resp : String) : Bool :=
  pyIn ("id=" ++ toString cmd_id) resp &&
    (pyStartsWith resp "ACK" || pyStartsWith resp "ERR")

/-- `send_cmd_wait_ack`, acknowledgement-waiting part: poll lines until the
deadline (list exhaustion); skip empty lines; return the first line
matching `ackMatch`; raise `TimeoutError` when the deadline passes. -/
def send_cmd_wait_ack (cmd_id : Nat) : List String → Except PyErr String
  | [] => Except.error PyErr.timeout
  | resp :: rest =>
    if resp = "" then send_cmd_wait_ack cmd_id rest
    else if ackMatch cmd_id resp then Except.ok resp
    else send_cmd_wait_ack cmd_id rest

/-- The line written by `send_cmd_wait_ack` for command `cmd` and id
`cmd_id` (before the terminating newline). -/
def ackLine (cmd : String) (cmd_id : Nat) : String :=
  cmd ++ " id=" ++ toString cmd_id

/-- The `VIB` command sent by `main` for motor `m`. -/
def vibCmd (m : Nat) : String :=
  s!"VIB m={m} amp=80 n=1 on=100 off=0 gap=2000 mode=OVR"

/-- The command lines sent by the motor loop of `main`, starting at
command id `cmd_id`, for the remaining motor indices `ms`; `oracle k` is
the acknowledgement line the device answers to command id `k`.  On an
`ERR` reply `main` returns at once; otherwise the final `STOP` follows the
loop. -/
def vibLoop (oracle : Nat → String) (cmd_id : Nat) : List Nat → List String
  | [] => [ackLine "STOP" cmd_id]
  | m :: rest =>
    if pyStartsWith (oracle cmd_id) "ERR" then [ackLine (vibCmd m) cmd_id]
    else ackLine (vibCmd m) cmd_id :: vibLoop oracle (cmd_id + 1) rest

/-- All command lines sent by `main` over a run of `cycles` cycles, under
response oracle `oracle` (each acknowledged command is assumed answered
by `oracle` at its id). -/
def main_sent (oracle : Nat → String) (cycles : Nat) : List String :=
  ackLine "STOP" 1 :: vibLoop oracle 2 ((List.range cycles).flatMap fun _ => [1, 2, 3])

end AckScript

namespace OkScript

/-!  `driver-vib/test2.py`: commands answered by `OK`/`ERR` lines. -/

/-- The predicate of `read_reply`: the stripped line starts with `OK` or
`ERR`. -/
def okErrMatch (resp : String) : Bool :=
  pyStartsWith resp "OK" || pyStartsWith resp "ERR"

/-- `read_reply`: poll lines until the deadline (list exhaustion); skip
empty lines; return the first line starting with `OK` or `ERR`; raise
`TimeoutError` when the deadline passes. -/
def read_reply : List String → Except PyErr String
  | [] => Except.error PyErr.timeout
  | resp :: rest =>
    if resp = "" then read_reply rest
    else if okErrMatch resp then Except.ok resp
    else read_reply rest

/-- `cmd_expect_ok`: send `line`, read a reply; raise `RuntimeError` when
the reply starts with `ERR`, otherwise return the reply. -/
def cmd_expect_ok (line : String) (polls : List String) : Except PyErr String :=
  match read_reply polls with
  | Except.error e => Except.error e
  | Except.ok resp =>
    if pyStartsWith resp "ERR" then Except.error (PyErr.runtimeError line resp)
    else Except.ok resp

/-- `motor_mask` of `driver-vib/test2.py`: `1 << (motor_index_1based - 1)`. -/
def motor_mask (motor_index_1based : Nat) : Nat :=
  1 <<< (motor_index_1based - 1)

end OkScript

namespace UdpScript

/-!  `driver-vib-udp/test.py`: fire-and-forget (no replies read). -/

/-- `send_line`: write the stripped line plus a single newline, then
flush. -/
def send_line (line : String) : List SerialOp :=
  [SerialOp.write (pyStrip line ++ "\n"), SerialOp.flush]

/-- `motor_mask` of `driver-vib-udp/test.py`: `1 << (motor_index_1based - 1)`. -/
def motor_mask (motor_index_1based : Nat) : Nat :=
  1 <<< (motor_index_1based - 1)

/-- `vibrate_once`: send `S <mask> <amp>`, sleep `on_ms`, send `X`. -/
def vibrate_once (mask amp on_ms : Nat) : List Ev :=
  [Ev.send s!"S {mask} {amp}", Ev.sleep on_ms, Ev.send "X"]

/-- `vibrate_n`: `for i in range(n)`: one pulse, then an `off_ms` sleep
unless `i == n - 1`. -/
def vibrate_n (mask amp n on_ms off_ms : Nat) : List Ev :=
  (List.range n).flatMap fun i =>
    vibrate_once mask amp on_ms ++ if i ≠ n - 1 then [Ev.sleep off_ms] else []

/-- Module-level constant `AMP`. -/
def AMP : Nat := 80

/-- Module-level constant `ON_MS`. -/
def ON_MS : Nat := 120

/-- Module-level constant `OFF_MS`. -/
def OFF_MS : Nat := 120

/-- All command lines `main` passes to `send_line` over a full run:
two initial `X`, two `F`, the three pulse groups, and the final safety
`X`. -/
def main_sent : List String :=
  ["X", "X", "F 300 240 240", "F 300 240 240"] ++
    sends (vibrate_n (motor_mask 1) AMP 1 ON_MS OFF_MS) ++
    sends (vibrate_n (motor_mask 2) AMP 2 ON_MS OFF_MS) ++
    sends (vibrate_n (motor_mask 3) AMP 3 ON_MS OFF_MS) ++ ["X"]

end UdpScript

namespace OkScript

/-- `send_line` of `driver-vib/test2.py`: write the stripped line plus a
single newline, then flush (same body as the UDP-style script). -/
def send_line (line : String) : List SerialOp :=
  [SerialOp.write (pyStrip line ++ "\n"), SerialOp.flush]

/-- `vibrate_once` of `driver-vib/test2.py`: `S <mask> <amp>` and `X` go
through `cmd_expect_ok`; `polls j` is the poll-line sequence available to
the `j`-th `cmd_expect_ok` call of the run.  On success the timed trace of
the pulse is returned; an `ERR` reply or timeout raises. -/
def vibrate_once (mask amp on_ms : Nat) (j : Nat) (polls : Nat → List String) :
    Except PyErr (List Ev) :=
  match cmd_expect_ok s!"S {mask} {amp}" (polls j) with
  | Except.error e => Except.error e
  | Except.ok _ =>
    match cmd_expect_ok "X" (polls (j + 1)) with
    | Except.error e => Except.error e
    | Except.ok _ => Except.ok [Ev.send s!"S {mask} {amp}", Ev.sleep on_ms, Ev.send "X"]

/-- The `for i in range(n)` loop of `vibrate_n` of `driver-vib/test2.py`,
over the remaining loop indices, threading the `cmd_expect_ok` call
counter `j`. -/
def vibrate_n_go (mask amp on_ms off_ms n : Nat) (polls : Nat → List String) :
    List Nat → Nat → Except PyErr (List Ev)
  | [], _ => Except.ok []
  | i :: rest, j =>
    match vibrate_once mask amp on_ms j polls with
    | Except.error e => Except.error e
    | Except.ok evs =>
      match vibrate_n_go mask amp on_ms off_ms n polls rest (j + 2) with
      | Except.error e => Except.error e
      | Except.ok evs2 =>
        Except.ok (evs ++ (if i ≠ n - 1 then [Ev.sleep off_ms] else []) ++ evs2)

/-- `vibrate_n` of `driver-vib/test2.py`. -/
def vibrate_n (mask amp n on_ms off_ms : Nat) (polls : Nat → List String) :
    Except PyErr (List Ev) :=
  vibrate_n_go mask amp on_ms off_ms n polls (List.range n) 0

/-- Module-level constant `AMP`. -/
def AMP : Nat := 80

/-- Module-level constant `ON_MS`. -/
def ON_MS : Nat := 120

/-- Module-level constant `OFF_MS`. -/
def OFF_MS : Nat := 120

/-- All command lines `main` of `driver-vib/test2.py` passes to
`send_line` over a full successful run (an erroring run sends a prefix of
this list); the pulse-group send traces equal those of the UDP-style
`vibrate_n`, as proved below. -/
def main_sent : List String :=
  ["X", "F 300 240 240"] ++
    sends (UdpScript.vibrate_n (motor_mask 1) AMP 1 ON_MS OFF_MS) ++
    sends (UdpScript.vibrate_n (motor_mask 2) AMP 2 ON_MS OFF_MS) ++
    sends (UdpScript.vibrate_n (motor_mask 3) AMP 3 ON_MS OFF_MS) ++ ["X"]

end OkScript

namespace LogScript

/-!  `driver-vib-udp/vib-test-1.py`: the reaction-time logger. -/

/-- One row of the `vib_test` SQLite table. -/
structure Row where
  group_id : Int
  trial_index : Nat
  ts_command_send : ℚ
  ts_keyboard_down : ℚ
  duration : ℚ
deriving DecidableEq, Repr

/-- `db_insert`: `INSERT OR REPLACE` keyed on the primary key
`(group_id, trial_index)` — any existing row with that key is replaced. -/
def db_insert (db : List Row) (group_id : Int) (trial_index : Nat)
    (ts_cmd ts_key duration : ℚ) : List Row :=
  db.filter (fun r => !(r.group_id == group_id && r.trial_index == trial_index)) ++
    [{ group_id := group_id, trial_index := trial_index, ts_command_send := ts_cmd,
       ts_keyboard_down := ts_key, duration := duration }]

/-- `send_line` of `driver-vib-udp/vib-test-1.py` (same body as the other
two `send_line`s). -/
def send_line (line : String) : List SerialOp :=
  [SerialOp.write (pyStrip line ++ "\n"), SerialOp.flush]

/-- What one `motor1_single_pulse` call does: the returned timestamp, the
serial operations performed before returning, and the single timer thread
it starts (its delay in seconds and the action it will run). -/
structure PulseResult where
  ts_command_send : ℚ
  immediate : List SerialOp
  timer_delay_s : ℚ
  timer_action : List SerialOp
deriving DecidableEq, Repr

/-- Module-level constant `AMP`. -/
def AMP : Nat := 80

/-- Module-level constant `PULSE_MS`. -/
def PULSE_MS : Nat := 120

/-- Module-level constant `GROUP_ID`. -/
def GROUP_ID : Int := 3

/-- Module-level constant `TRIALS`. -/
def TRIALS : Nat := 10

/-- `motor1_single_pulse` at wall-clock time `now`: take
`ts_command_send`, send `S 1 <amp>`, start one `threading.Timer` that
sends `X` after `pulse_ms / 1000` seconds, and return at once. -/
def motor1_single_pulse (now : ℚ) (amp pulse_ms : Nat) : PulseResult :=
  { ts_command_send := now,
    immediate := send_line s!"S 1 {amp}",
    timer_delay_s := (pulse_ms : ℚ) / 1000,
    timer_action := send_line "X" }

/-- One iteration of the trial loop of `main`: fire the pulse at time
`now`; `key` is the SPACE key-down timestamp obtained from the key queue
within the 10 s timeout, or `none` on timeout, in which case the trial is
skipped and nothing is written. -/
def trial_step (db : List Row) (group_id : Int) (trial : Nat) (now : ℚ)
    (key : Option ℚ) : List Row :=
  let ts_cmd := (motor1_single_pulse now AMP PULSE_MS).ts_command_send
  match key with
  | none => db
  | some ts_key => db_insert db group_id trial ts_cmd ts_key (ts_key - ts_cmd)

/-- The trial loop of `main`: starting database, starting trial index, and
one `(now, key)` pair per trial. -/
def run_trials (group_id : Int) : List Row → Nat → List (ℚ × Option ℚ) → List Row
  | db, _, [] => db
  | db, trial, (now, key) :: rest =>
    run_trials group_id (trial_step db group_id trial now key) (trial + 1) rest

/-- All command lines `main` passes to `send_line` over a full run of
`trials` trials: two initial `X`, two `F`, per trial the pulse start
`S 1 <AMP>` and the timer-thread `X`, and the final safety `X`. -/
def main_sent (trials : Nat) : List String :=
  ["X", "X", "F 300 240 240", "F 300 240 240"] ++
    ((List.range trials).flatMap fun _ => [s!"S 1 {AMP}", "X"]) ++ ["X"]

end LogScript

/-- The `vib_test` primary-key test: does row `r` have key
`(group_id, trial_index) = (g, t)`? -/
def LogScript.rowKey (g : Int) (t : Nat) (r : LogScript.Row) : Bool :=
  r.group_id == g && r.trial_index == t

/-- A sequence of `db_insert` calls applied to a database state, each
taking the five column values of one row. -/
def LogScript.applyInserts : List LogScript.Row → List LogScript.Row → List LogScript.Row
  | db, [] => db
  | db, r :: rest =>
    LogScript.applyInserts
      (LogScript.db_insert db r.group_id r.trial_index r.ts_command_send
        r.ts_keyboard_down r.duration) rest

/-- The fixed serial command vocabulary of the scripts. -/
inductive Cmd where
  | S (mask amp : Nat)
  | X
  | F (f1 f2 f3 : Nat)
  | VIB (m amp n on_ms off_ms gap : Nat) (mode : String)
  | STOP
deriving DecidableEq, Repr

/-- The command line each vocabulary element renders to. -/
def Cmd.render : Cmd → String
  | Cmd.S mask amp => s!"S {mask} {amp}"
  | Cmd.X => "X"
  | Cmd.F f1 f2 f3 => s!"F {f1} {f2} {f3}"
  | Cmd.VIB m amp n on_ms off_ms gap mode =>
    s!"VIB m={m} amp={amp} n={n} on={on_ms} off={off_ms} gap={gap} mode={mode}"
  | Cmd.STOP => "STOP"

theorem listInfixB_iff_isInfix (pat : List Char) :
    ∀ l, listInfixB pat l = true ↔ pat <:+: l := by
  intro l
  induction l with
  | nil =>
    simp [listInfixB, List.isEmpty_iff, List.infix_nil]
  | cons c t ih =>
    simp only [listInfixB, Bool.or_eq_true, ih, List.infix_cons_iff,
      List.isPrefixOf_iff_prefix]

theorem AckScript.ack_ok_match (cmd_id : Nat) :
    ∀ polls resp, AckScript.send_cmd_wait_ack cmd_id polls = Except.ok resp →
      AckScript.ackMatch cmd_id resp = true := by
  intro polls
  induction polls with
  | nil => intro resp h; simp [AckScript.send_cmd_wait_ack] at h
  | cons r rest ih =>
    intro resp h
    simp only [AckScript.send_cmd_wait_ack] at h
    by_cases he : r = ""
    · simp only [if_pos he] at h
      exact ih resp h
    · simp only [if_neg he] at h
      by_cases hm : AckScript.ackMatch cmd_id r
      · simp only [if_pos hm, Except.ok.injEq] at h
        subst h; exact hm
      · simp only [if_neg hm] at h
        exact ih resp h

theorem AckScript.ack_timeout (cmd_id : Nat) :
    ∀ polls, (∀ r ∈ polls, AckScript.ackMatch cmd_id r = false) →
      AckScript.send_cmd_wait_ack cmd_id polls = Except.error PyErr.timeout := by
  intro polls
  induction polls with
  | nil => intro _; rfl
  | cons r rest ih =>
    intro h
    have hr : AckScript.ackMatch cmd_id r = false := h r (by simp)
    have hrest := ih fun x hx => h x (by simp [hx])
    simp only [AckScript.send_cmd_wait_ack]
    by_cases he : r = "" <;> simp [he, hr, hrest]

theorem OkScript.read_reply_ok_match :
    ∀ polls resp, OkScript.read_reply polls = Except.ok resp →
      OkScript.okErrMatch resp = true := by
  intro polls
  induction polls with
  | nil => intro resp h; simp [OkScript.read_reply] at h
  | cons r rest ih =>
    intro resp h
    simp only [OkScript.read_reply] at h
    by_cases he : r = ""
    · simp only [if_pos he] at h
      exact ih resp h
    · simp only [if_neg he] at h
      by_cases hm : OkScript.okErrMatch r
      · simp only [if_pos hm, Except.ok.injEq] at h
        subst h; exact hm
      · simp only [if_neg hm] at h
        exact ih resp h

theorem OkScript.read_reply_timeout :
    ∀ polls, (∀ r ∈ polls, OkScript.okErrMatch r = false) →
      OkScript.read_reply polls = Except.error PyErr.timeout := by
  intro polls
  induction polls with
  | nil => intro _; rfl
  | cons r rest ih =>
    intro h
    have hr : OkScript.okErrMatch r = false := h r (by simp)
    have hrest := ih fun x hx => h x (by simp [hx])
    simp only [OkScript.read_reply]
    by_cases he : r = "" <;> simp [he, hr, hrest]

/-- C1: each acknowledgement-waiting loop polls with a deadline and returns
only a line matching its predicate: `send_cmd_wait_ack` returns a line only
if it contains `id=<cmd_id>` and starts with `ACK` or `ERR`, `read_reply`
returns a line only if it starts with `OK` or `ERR`, and each raises
`TimeoutError` when the deadline passes with no matching line. -/
theorem C1_ack_wait_loops (cmd_id : Nat) (polls : List String) :
    (∀ resp, AckScript.send_cmd_wait_ack cmd_id polls = Except.ok resp →
      (("id=" ++ toString cmd_id).toList <:+: resp.toList) ∧
        (pyStartsWith resp "ACK" || pyStartsWith resp "ERR") = true) ∧
    ((∀ resp ∈ polls, AckScript.ackMatch cmd_id resp = false) →
      AckScript.send_cmd_wait_ack cmd_id polls = Except.error PyErr.timeout) ∧
    (∀ resp, OkScript.read_reply polls = Except.ok resp →
      (pyStartsWith resp "OK" || pyStartsWith resp "ERR") = true) ∧
    ((∀ resp ∈ polls, OkScript.okErrMatch resp = false) →
      OkScript.read_reply polls = Except.error PyErr.timeout) := by
  refine ⟨?_, AckScript.ack_timeout cmd_id polls, ?_, OkScript.read_reply_timeout polls⟩
  · intro resp h
    have hm := AckScript.ack_ok_match cmd_id polls resp h
    simp only [AckScript.ackMatch, Bool.and_eq_true] at hm
    exact ⟨(listInfixB_iff_isInfix _ _).mp hm.1, hm.2⟩
  · intro resp h
    exact OkScript.read_reply_ok_match polls resp h

/-- Concrete run of C1: a matching `ACK` line is returned with the stated
shape, and an all-junk poll sequence times out. -/
theorem C1_ack_wait_loops_witness :
    ((("id=" ++ toString 1).toList <:+: "ACK ok id=1".toList) ∧
      (pyStartsWith "ACK ok id=1" "ACK" || pyStartsWith "ACK ok id=1" "ERR") = true) ∧
    OkScript.read_reply ["junk"] = Except.error PyErr.timeout :=
  ⟨(C1_ack_wait_loops 1 ["", "junk", "ACK ok id=1"]).1 "ACK ok id=1" rfl,
    (C1_ack_wait_loops 1 ["junk"]).2.2.2 (by decide)⟩

/-- C3: error recovery is print-and-stop.  In the acknowledged-command
script an `ERR` reply to a `VIB` command makes the motor loop return at
once, so that `VIB` line is the last command sent (no further `VIB`, no
final `STOP`); in the `OK`/`ERR` script `cmd_expect_ok` raises
`RuntimeError` whenever the reply starts with `ERR`. -/
theorem C3_error_print_and_stop :
    (∀ (oracle : Nat → String) (k m : Nat) (ms : List Nat),
      pyStartsWith (oracle k) "ERR" = true →
        AckScript.vibLoop oracle k (m :: ms) = [AckScript.ackLine (AckScript.vibCmd m) k]) ∧
    (∀ (oracle : Nat → String) (cycles : Nat), 1 ≤ cycles →
      pyStartsWith (oracle 2) "ERR" = true →
        AckScript.main_sent oracle cycles =
          [AckScript.ackLine "STOP" 1, AckScript.ackLine (AckScript.vibCmd 1) 2]) ∧
    (∀ (line : String) (polls : List String) (resp : String),
      OkScript.read_reply polls = Except.ok resp → pyStartsWith resp "ERR" = true →
        OkScript.cmd_expect_ok line polls = Except.error (PyErr.runtimeError line resp)) := by
  refine ⟨?_, ?_, ?_⟩
  · intro oracle k m ms herr
    simp [AckScript.vibLoop, herr]
  · intro oracle cycles hc herr
    obtain ⟨c, rfl⟩ : ∃ c, cycles = c + 1 := ⟨cycles - 1, (Nat.succ_pred_eq_of_pos hc).symm⟩
    simp [AckScript.main_sent, List.range_succ_eq_map, AckScript.vibLoop, herr]
  · intro line polls resp hread herr
    simp [OkScript.cmd_expect_ok, hread, herr]

/-- Concrete run of C3: with an `ERR` reply to the first `VIB` command the
acknowledged-command script sends nothing after it, and `cmd_expect_ok`
turns an `ERR` reply into a `RuntimeError`. -/
theorem C3_error_print_and_stop_witness :
    AckScript.main_sent (fun _ => "ERR badarg id=2") 1 =
      [AckScript.ackLine "STOP" 1, AckScript.ackLine (AckScript.vibCmd 1) 2] ∧
    OkScript.cmd_expect_ok "X" ["ERR stuck"] =
      Except.error (PyErr.runtimeError "X" "ERR stuck") :=
  ⟨C3_error_print_and_stop.2.1 (fun _ => "ERR badarg id=2") 1 (by decide) rfl,
    C3_error_print_and_stop.2.2 "X" ["ERR stuck"] "ERR stuck" rfl rfl⟩

theorem sends_append (a b : List Ev) : sends (a ++ b) = sends a ++ sends b :=
  List.filterMap_append a b _

theorem flatMap_range_const_succ {α : Type _} (k : Nat) (L : List α) :
    (List.range (k + 1)).flatMap (fun _ => L) = L ++ (List.range k).flatMap (fun _ => L) := by
  rw [List.range_succ_eq_map, List.flatMap_cons, List.flatMap_map]

theorem flatMap_shift {α : Type _} (A : List α) (s : α) :
    ∀ k, (List.range k).flatMap (fun _ => A ++ [s]) ++ A =
      A ++ (List.range k).flatMap (fun _ => s :: A) := by
  intro k
  induction k with
  | zero => simp
  | succ k ih =>
    rw [flatMap_range_const_succ, flatMap_range_const_succ, List.append_assoc,
      List.append_assoc, ← List.append_assoc A, ih, List.append_assoc,
      ← List.singleton_append, List.append_assoc]
    simp

theorem UdpScript.vibrate_n_eq_groups (mask amp on_ms off_ms k : Nat) :
    UdpScript.vibrate_n mask amp (k + 1) on_ms off_ms =
      (List.range k).flatMap
          (fun _ => UdpScript.vibrate_once mask amp on_ms ++ [Ev.sleep off_ms]) ++
        UdpScript.vibrate_once mask amp on_ms := by
  unfold UdpScript.vibrate_n
  rw [List.range_succ, List.flatMap_append]
  simp only [List.flatMap_cons, List.flatMap_nil, List.append_nil, Nat.add_sub_cancel]
  rw [if_neg (by simp), List.append_nil]
  congr 1
  apply List.flatMap_congr
  intro i hi
  rw [if_pos (Nat.ne_of_lt (List.mem_range.mp hi))]

theorem UdpScript.vibrate_n_head_groups (mask amp on_ms off_ms k : Nat) :
    UdpScript.vibrate_n mask amp (k + 1) on_ms off_ms =
      UdpScript.vibrate_once mask amp on_ms ++
        (List.range k).flatMap
          (fun _ => Ev.sleep off_ms :: UdpScript.vibrate_once mask amp on_ms) := by
  rw [UdpScript.vibrate_n_eq_groups, flatMap_shift]

theorem sends_flatMap_range (k : Nat) (block : List Ev) :
    sends ((List.range k).flatMap fun _ => block) =
      (List.range k).flatMap fun _ => sends block := by
  induction k with
  | zero => rfl
  | succ k ih => rw [flatMap_range_const_succ, sends_append, ih, flatMap_range_const_succ]

theorem OkScript.cmd_expect_ok_of_ok {polls : List String} {r : String}
    (h : OkScript.read_reply polls = Except.ok r) (he : pyStartsWith r "ERR" = false)
    (line : String) : OkScript.cmd_expect_ok line polls = Except.ok r := by
  simp [OkScript.cmd_expect_ok, h, he]

theorem OkScript.vibrate_once_ok (mask amp on_ms : Nat) (j : Nat) (polls : Nat → List String)
    (hp : ∀ j, ∃ r, OkScript.read_reply (polls j) = Except.ok r ∧
      pyStartsWith r "ERR" = false) :
    OkScript.vibrate_once mask amp on_ms j polls =
      Except.ok (UdpScript.vibrate_once mask amp on_ms) := by
  obtain ⟨r1, h1, e1⟩ := hp j
  obtain ⟨r2, h2, e2⟩ := hp (j + 1)
  simp [OkScript.vibrate_once, OkScript.cmd_expect_ok_of_ok h1 e1,
    OkScript.cmd_expect_ok_of_ok h2 e2, UdpScript.vibrate_once]

theorem OkScript.vibrate_n_go_ok (mask amp on_ms off_ms n : Nat) (polls : Nat → List String)
    (hp : ∀ j, ∃ r, OkScript.read_reply (polls j) = Except.ok r ∧
      pyStartsWith r "ERR" = false) :
    ∀ l j, OkScript.vibrate_n_go mask amp on_ms off_ms n polls l j =
      Except.ok (l.flatMap fun i =>
        UdpScript.vibrate_once mask amp on_ms ++
          if i ≠ n - 1 then [Ev.sleep off_ms] else []) := by
  intro l
  induction l with
  | nil => intro j; rfl
  | cons i rest ih =>
    intro j
    simp [OkScript.vibrate_n_go, OkScript.vibrate_once_ok mask amp on_ms j polls hp,
      ih (j + 2), List.append_assoc]

theorem OkScript.vibrate_n_ok (mask amp n on_ms off_ms : Nat) (polls : Nat → List String)
    (hp : ∀ j, ∃ r, OkScript.read_reply (polls j) = Except.ok r ∧
      pyStartsWith r "ERR" = false) :
    OkScript.vibrate_n mask amp n on_ms off_ms polls =
      Except.ok (UdpScript.vibrate_n mask amp n on_ms off_ms) :=
  OkScript.vibrate_n_go_ok mask amp on_ms off_ms n polls hp (List.range n) 0

/-- C5: for `n ≥ 1` the pulse trace of `vibrate_n` is one pulse followed by
`n - 1` repetitions of an `off_ms` wait plus a pulse (so the off-wait sits
between consecutive pulses and not after the last); its command trace is
`n` alternating `S <mask> <amp>` / `X` pairs and ends with `X`; and the
acknowledged `vibrate_n` of `driver-vib/test2.py` produces the same trace
whenever every reply is a non-`ERR` (`OK`) line. -/
theorem C5_vibrate_n_pulses (mask amp n on_ms off_ms : Nat) (hn : 1 ≤ n) :
    UdpScript.vibrate_n mask amp n on_ms off_ms =
      UdpScript.vibrate_once mask amp on_ms ++
        (List.range (n - 1)).flatMap
          (fun _ => Ev.sleep off_ms :: UdpScript.vibrate_once mask amp on_ms) ∧
    sends (UdpScript.vibrate_n mask amp n on_ms off_ms) =
      (List.range n).flatMap (fun _ => [s!"S {mask} {amp}", "X"]) ∧
    (UdpScript.vibrate_n mask amp n on_ms off_ms).getLast? = some (Ev.send "X") ∧
    (∀ polls : Nat → List String,
      (∀ j, ∃ r, OkScript.read_reply (polls j) = Except.ok r ∧
        pyStartsWith r "ERR" = false) →
      OkScript.vibrate_n mask amp n on_ms off_ms polls =
        Except.ok (UdpScript.vibrate_n mask amp n on_ms off_ms)) := by
  obtain ⟨k, rfl⟩ : ∃ k, n = k + 1 := ⟨n - 1, (Nat.succ_pred_eq_of_pos hn).symm⟩
  refine ⟨by rw [UdpScript.vibrate_n_head_groups]; rw [Nat.add_sub_cancel], ?_, ?_, ?_⟩
  · rw [UdpScript.vibrate_n_head_groups, sends_append,
      sends_flatMap_range, flatMap_range_const_succ]
    rfl
  · rw [UdpScript.vibrate_n_eq_groups]
    rw [List.getLast?_append_of_ne_nil _ (by simp [UdpScript.vibrate_once])]
    rfl
  · intro polls hp
    exact OkScript.vibrate_n_ok mask amp (k + 1) on_ms off_ms polls hp

/-- Concrete run of C5 at `n = 2`: the command trace is two `S 1 80`/`X`
pairs, and the acknowledged variant produces the same trace under all-`OK`
replies. -/
theorem C5_vibrate_n_pulses_witness :
    sends (UdpScript.vibrate_n 1 80 2 120 120) =
      (List.range 2).flatMap (fun _ => [s!"S {1} {80}", "X"]) ∧
    OkScript.vibrate_n 1 80 2 120 120 (fun _ => ["OK"]) =
      Except.ok (UdpScript.vibrate_n 1 80 2 120 120) :=
  ⟨(C5_vibrate_n_pulses 1 80 2 120 120 (by decide)).2.1,
    (C5_vibrate_n_pulses 1 80 2 120 120 (by decide)).2.2.2 (fun _ => ["OK"])
      (fun _ => ⟨"OK", rfl, rfl⟩)⟩

theorem head?_dropWhile_false {α : Type _} (p : α → Bool) :
    ∀ (l : List α) (c : α), (l.dropWhile p).head? = some c → p c = false := by
  intro l
  induction l with
  | nil => intro c h; simp at h
  | cons a t ih =>
    intro c h
    rw [List.dropWhile_cons] at h
    by_cases hp : p a = true
    · rw [if_pos hp] at h
      exact ih c h
    · rw [if_neg hp] at h
      simp only [List.head?_cons, Option.some.injEq] at h
      subst h
      simpa using hp

theorem pyStripList_getLast (l : List Char) (c : Char)
    (h : (pyStripList l).getLast? = some c) : c.isWhitespace = false := by
  unfold pyStripList at h
  rw [List.getLast?_reverse] at h
  exact head?_dropWhile_false Char.isWhitespace _ c h

/-- C6: every command goes out as one line-terminated string: each of the
three `send_line`s writes exactly the stripped input followed by a single
newline and then flushes, the three are the same function, and every
written payload ends in `\n` whose preceding character (when any) is
non-whitespace — so the sent bytes always end with exactly one newline. -/
theorem C6_send_line_newline (s : String) :
    UdpScript.send_line s = [SerialOp.write (pyStrip s ++ "\n"), SerialOp.flush] ∧
    OkScript.send_line s = UdpScript.send_line s ∧
    LogScript.send_line s = UdpScript.send_line s ∧
    (∀ d, SerialOp.write d ∈ UdpScript.send_line s →
      d.toList.getLast? = some '\n' ∧
        ∀ c, d.toList.dropLast.getLast? = some c → c.isWhitespace = false) := by
  refine ⟨rfl, rfl, rfl, ?_⟩
  intro d hd
  have hd' : d = pyStrip s ++ "\n" := by
    simp only [UdpScript.send_line, List.mem_cons, List.not_mem_nil, or_false,
      SerialOp.write.injEq] at hd
    rcases hd with h | h
    · exact h
    · exact absurd h (fun hh => SerialOp.noConfusion hh)
  subst hd'
  have hlist : (pyStrip s ++ "\n").toList = pyStripList s.toList ++ ['\n'] := rfl
  constructor
  · rw [hlist, List.getLast?_concat]
  · intro c hc
    rw [hlist, List.dropLast_concat] at hc
    exact pyStripList_getLast s.toList c hc

/-- Concrete run of C6: `send_line "  S 1 80  "` writes `"S 1 80\n"`, which
ends in a newline preceded by the non-whitespace `'0'`. -/
theorem C6_send_line_newline_witness :
    "S 1 80\n".toList.getLast? = some '\n' ∧ ('0').isWhitespace = false :=
  ⟨((C6_send_line_newline "  S 1 80  ").2.2.2 "S 1 80\n" (by decide)).1,
    ((C6_send_line_newline "  S 1 80  ").2.2.2 "S 1 80\n" (by decide)).2 '0' (by decide)⟩

/-- C7: `motor1_single_pulse` returns the timestamp it took, its only
pre-return serial traffic is the start command `S 1 <amp>` (it does not
block on the stop), and it starts a single timer that runs `send_line "X"`
after `pulse_ms / 1000` seconds. -/
theorem C7_single_timer_stop (now : ℚ) (amp pulse_ms : Nat) :
    (LogScript.motor1_single_pulse now amp pulse_ms).ts_command_send = now ∧
    (LogScript.motor1_single_pulse now amp pulse_ms).immediate =
      LogScript.send_line s!"S 1 {amp}" ∧
    (LogScript.motor1_single_pulse now amp pulse_ms).timer_delay_s =
      (pulse_ms : ℚ) / 1000 ∧
    (LogScript.motor1_single_pulse now amp pulse_ms).timer_action =
      LogScript.send_line "X" ∧
    (∀ d, SerialOp.write d ∈ (LogScript.motor1_single_pulse now amp pulse_ms).immediate →
      d = pyStrip s!"S 1 {amp}" ++ "\n") := by
  refine ⟨rfl, rfl, rfl, rfl, ?_⟩
  intro d hd
  simp only [LogScript.motor1_single_pulse, LogScript.send_line, List.mem_cons,
    List.not_mem_nil, or_false, SerialOp.write.injEq] at hd
  rcases hd with h | h
  · exact h
  · exact absurd h (fun hh => SerialOp.noConfusion hh)

/-- Concrete run of C7 at the script's constants: the returned timestamp
is the call time, and the only pre-return write is the start command. -/
theorem C7_single_timer_stop_witness :
    (LogScript.motor1_single_pulse 7 80 120).ts_command_send = 7 ∧
    "S 1 80\n" = pyStrip "S 1 80" ++ "\n" :=
  ⟨(C7_single_timer_stop 7 80 120).1,
    (C7_single_timer_stop 7 80 120).2.2.2.2 "S 1 80\n" (by decide)⟩

/-- C10: the two `motor_mask` implementations agree, and for every motor
index `i ≥ 1` both return `2^(i-1)` — a mask whose only set bit is bit
`i - 1` — mapping motors 1, 2, 3 to masks 1, 2, 4. -/
theorem C10_motor_mask_equal (i : Nat) (_hi : 1 ≤ i) :
    UdpScript.motor_mask i = OkScript.motor_mask i ∧
    UdpScript.motor_mask i = 2 ^ (i - 1) ∧
    (∀ b, (UdpScript.motor_mask i).testBit b = true ↔ b = i - 1) ∧
    UdpScript.motor_mask 1 = 1 ∧ UdpScript.motor_mask 2 = 2 ∧
    UdpScript.motor_mask 3 = 4 := by
  have hpow : UdpScript.motor_mask i = 2 ^ (i - 1) := by
    unfold UdpScript.motor_mask
    rw [Nat.shiftLeft_eq, one_mul]
  refine ⟨rfl, hpow, ?_, rfl, rfl, rfl⟩
  intro b
  rw [hpow, Nat.testBit_two_pow]
  simp [eq_comm]

/-- Concrete run of C10 at `i = 3`: both masks are `4 = 2^2`, whose only
set bit is bit 2. -/
theorem C10_motor_mask_equal_witness :
    UdpScript.motor_mask 3 = OkScript.motor_mask 3 ∧
    ((UdpScript.motor_mask 3).testBit 2 = true ↔ 2 = 3 - 1) :=
  ⟨(C10_motor_mask_equal 3 (by decide)).1,
    (C10_motor_mask_equal 3 (by decide)).2.2.1 2⟩

theorem LogScript.mem_db_insert {db : List LogScript.Row} {g : Int} {t : Nat}
    {a b d : ℚ} {r : LogScript.Row} (h : r ∈ LogScript.db_insert db g t a b d) :
    r ∈ db ∨
      r = { group_id := g, trial_index := t, ts_command_send := a,
            ts_keyboard_down := b, duration := d } := by
  unfold LogScript.db_insert at h
  rcases List.mem_append.mp h with h1 | h1
  · exact Or.inl (List.mem_filter.mp h1).1
  · exact Or.inr (List.mem_singleton.mp h1)

theorem LogScript.run_trials_duration (g : Int) :
    ∀ (inputs : List (ℚ × Option ℚ)) (db : List LogScript.Row) (t0 : Nat),
      (∀ r ∈ db, r.duration = r.ts_keyboard_down - r.ts_command_send) →
      ∀ r ∈ LogScript.run_trials g db t0 inputs,
        r.duration = r.ts_keyboard_down - r.ts_command_send := by
  intro inputs
  induction inputs with
  | nil => intro db t0 h r hr; exact h r hr
  | cons p rest ih =>
    intro db t0 h r hr
    obtain ⟨now, key⟩ := p
    rw [show LogScript.run_trials g db t0 ((now, key) :: rest) =
        LogScript.run_trials g (LogScript.trial_step db g t0 now key) (t0 + 1) rest
      from rfl] at hr
    refine ih (LogScript.trial_step db g t0 now key) (t0 + 1) ?_ r hr
    intro x hx
    cases key with
    | none => exact h x hx
    | some k =>
      rcases LogScript.mem_db_insert
          (show x ∈ LogScript.db_insert db g t0 now k (k - now) from hx) with h1 | h1
      · exact h x h1
      · subst h1; rfl

/-- C2: every row the reaction-time logger writes stores
`duration = ts_keyboard_down - ts_command_send`: a logged trial inserts the
row built from the `motor1_single_pulse` send timestamp and the SPACE
key-down timestamp with exactly that difference, and every row of the
database after any run of the trial loop satisfies the equation (provided
every pre-existing row did). -/
theorem C2_duration_is_key_minus_send (db : List LogScript.Row) (g : Int) (t0 : Nat)
    (inputs : List (ℚ × Option ℚ))
    (h : ∀ r ∈ db, r.duration = r.ts_keyboard_down - r.ts_command_send) :
    (∀ now key, LogScript.trial_step db g t0 now (some key) =
      LogScript.db_insert db g t0
        ((LogScript.motor1_single_pulse now LogScript.AMP
            LogScript.PULSE_MS).ts_command_send)
        key
        (key - (LogScript.motor1_single_pulse now LogScript.AMP
            LogScript.PULSE_MS).ts_command_send)) ∧
    (∀ r ∈ LogScript.run_trials g db t0 inputs,
      r.duration = r.ts_keyboard_down - r.ts_command_send) :=
  ⟨fun _ _ => rfl, LogScript.run_trials_duration g inputs db t0 h⟩

/-- Concrete run of C2: one trial at send time 2 with key-down at 5 logs a
row whose duration `3` equals `5 - 2`. -/
theorem C2_duration_is_key_minus_send_witness :
    (⟨3, 1, 2, 5, 5 - 2⟩ : LogScript.Row).duration =
      (⟨3, 1, 2, 5, 5 - 2⟩ : LogScript.Row).ts_keyboard_down -
        (⟨3, 1, 2, 5, 5 - 2⟩ : LogScript.Row).ts_command_send :=
  (C2_duration_is_key_minus_send [] 3 1 [(2, some 5)] (by simp)).2
    ⟨3, 1, 2, 5, 5 - 2⟩ (List.Mem.head _)

theorem LogScript.run_trials_all_none (g : Int) :
    ∀ (inputs : List (ℚ × Option ℚ)) (db : List LogScript.Row) (t0 : Nat),
      (∀ p ∈ inputs, p.2 = none) → LogScript.run_trials g db t0 inputs = db := by
  intro inputs
  induction inputs with
  | nil => intro db t0 _; rfl
  | cons p rest ih =>
    intro db t0 h
    obtain ⟨now, key⟩ := p
    have hk : key = none := h (now, key) (by simp)
    subst hk
    exact ih db (t0 + 1) fun x hx => h x (by simp [hx])

theorem LogScript.run_trials_provenance (g : Int) :
    ∀ (inputs : List (ℚ × Option ℚ)) (db : List LogScript.Row) (t0 : Nat)
      (r : LogScript.Row), r ∈ LogScript.run_trials g db t0 inputs →
      r ∈ db ∨ ∃ i now k, inputs[i]? = some (now, some k) ∧
        r = { group_id := g, trial_index := t0 + i, ts_command_send := now,
              ts_keyboard_down := k, duration := k - now } := by
  intro inputs
  induction inputs with
  | nil => intro db t0 r hr; exact Or.inl hr
  | cons p rest ih =>
    intro db t0 r hr
    obtain ⟨now, key⟩ := p
    rcases ih (LogScript.trial_step db g t0 now key) (t0 + 1) r hr with h1 | h1
    · cases key with
      | none => exact Or.inl h1
      | some k =>
        rcases LogScript.mem_db_insert
            (show r ∈ LogScript.db_insert db g t0 now k (k - now) from h1) with h2 | h2
        · exact Or.inl h2
        · exact Or.inr ⟨0, now, k, by simp, h2⟩
    · obtain ⟨i, now2, k, hidx, hrow⟩ := h1
      refine Or.inr ⟨i + 1, now2, k, by simpa using hidx, ?_⟩
      rw [show t0 + (i + 1) = t0 + 1 + i from by omega]
      exact hrow

/-- C8: a timed-out trial writes nothing.  With no SPACE key-down the
trial step returns the database unchanged, a run whose trials all time
out leaves the database exactly as before, and every row present after
any run either pre-existed or comes from a trial whose key queue
delivered a key-down timestamp. -/
theorem C8_timeout_writes_nothing :
    (∀ (db : List LogScript.Row) (g : Int) (t : Nat) (now : ℚ),
      LogScript.trial_step db g t now none = db) ∧
    (∀ (g : Int) (inputs : List (ℚ × Option ℚ)) (db : List LogScript.Row) (t0 : Nat),
      (∀ p ∈ inputs, p.2 = none) → LogScript.run_trials g db t0 inputs = db) ∧
    (∀ (g : Int) (inputs : List (ℚ × Option ℚ)) (db : List LogScript.Row) (t0 : Nat)
      (r : LogScript.Row), r ∈ LogScript.run_trials g db t0 inputs →
      r ∈ db ∨ ∃ i now k, inputs[i]? = some (now, some k) ∧
        r = { group_id := g, trial_index := t0 + i, ts_command_send := now,
              ts_keyboard_down := k, duration := k - now }) :=
  ⟨fun _ _ _ _ => rfl, LogScript.run_trials_all_none,
    LogScript.run_trials_provenance⟩

/-- Concrete run of C8: a single trial with no key press within the
timeout leaves the one-row database exactly as it was. -/
theorem C8_timeout_writes_nothing_witness :
    LogScript.run_trials 3 [⟨9, 9, 1, 2, 1⟩] 1 [(2, none)] = [⟨9, 9, 1, 2, 1⟩] ∧
    LogScript.trial_step [⟨9, 9, 1, 2, 1⟩] 3 1 2 none = [⟨9, 9, 1, 2, 1⟩] :=
  ⟨C8_timeout_writes_nothing.2.1 3 [(2, none)] [⟨9, 9, 1, 2, 1⟩] 1
      (fun p hp => by simpa using congrArg Prod.snd (List.mem_singleton.mp hp)),
    C8_timeout_writes_nothing.1 [⟨9, 9, 1, 2, 1⟩] 3 1 2⟩

theorem LogScript.filter_db_insert (db : List LogScript.Row) (g : Int) (t : Nat)
    (a b d : ℚ) (g2 : Int) (t2 : Nat) :
    (LogScript.db_insert db g t a b d).filter (LogScript.rowKey g2 t2) =
      if g = g2 ∧ t = t2 then
        [{ group_id := g, trial_index := t, ts_command_send := a,
           ts_keyboard_down := b, duration := d }]
      else db.filter (LogScript.rowKey g2 t2) := by
  unfold LogScript.db_insert
  rw [List.filter_append]
  by_cases hk : g = g2 ∧ t = t2
  · obtain ⟨rfl, rfl⟩ := hk
    rw [if_pos ⟨rfl, rfl⟩]
    have h1 : (db.filter fun r =>
        !(r.group_id == g && r.trial_index == t)).filter (LogScript.rowKey g t) = [] := by
      rw [List.filter_comm]
      apply List.filter_eq_nil_iff.mpr
      intro x hx
      have h2 := (List.mem_filter.mp hx).2
      simp only [LogScript.rowKey] at h2
      simp [h2]
    rw [h1]
    simp [LogScript.rowKey]
  · rw [if_neg hk]
    have h2 : (([{ group_id := g, trial_index := t, ts_command_send := a,
                   ts_keyboard_down := b, duration := d }] : List LogScript.Row)).filter
          (LogScript.rowKey g2 t2) = [] := by
      apply List.filter_eq_nil_iff.mpr
      intro x hx
      rw [List.mem_singleton.mp hx]
      simp only [LogScript.rowKey, Bool.and_eq_true, beq_iff_eq]
      exact fun hc => hk ⟨hc.1, hc.2⟩
    have h3 : (db.filter fun r =>
        !(r.group_id == g && r.trial_index == t)).filter (LogScript.rowKey g2 t2) =
          db.filter (LogScript.rowKey g2 t2) := by
      rw [List.filter_comm]
      apply List.filter_eq_self.mpr
      intro x hx
      have h4 := (List.mem_filter.mp hx).2
      simp only [LogScript.rowKey, Bool.and_eq_true, beq_iff_eq] at h4
      simp only [Bool.not_eq_true', Bool.and_eq_false_iff, beq_eq_false_iff_ne]
      by_contra hcon
      simp only [not_or, not_ne_iff] at hcon
      exact hk ⟨h4.1 ▸ hcon.1.symm ▸ rfl, h4.2 ▸ hcon.2.symm ▸ rfl⟩
    rw [h2, h3, List.append_nil]

theorem LogScript.applyInserts_filter_no_key (g2 : Int) (t2 : Nat) :
    ∀ (inserts : List LogScript.Row) (db : List LogScript.Row),
      (∀ i ∈ inserts, LogScript.rowKey g2 t2 i = false) →
      (LogScript.applyInserts db inserts).filter (LogScript.rowKey g2 t2) =
        db.filter (LogScript.rowKey g2 t2) := by
  intro inserts
  induction inserts with
  | nil => intro db _; rfl
  | cons r rest ih =>
    intro db h
    have hr : LogScript.rowKey g2 t2 r = false := h r (by simp)
    rw [show LogScript.applyInserts db (r :: rest) =
        LogScript.applyInserts (LogScript.db_insert db r.group_id r.trial_index
          r.ts_command_send r.ts_keyboard_down r.duration) rest from rfl]
    rw [ih _ fun x hx => h x (by simp [hx])]
    rw [LogScript.filter_db_insert]
    rw [if_neg]
    intro hc
    simp only [LogScript.rowKey, hc.1, hc.2] at hr
    simp at hr

theorem LogScript.applyInserts_unique (inserts : List LogScript.Row) :
    ∀ db, (∀ g t, ((db.filter (LogScript.rowKey g t)).length ≤ 1)) →
      ∀ g t, (((LogScript.applyInserts db inserts).filter
        (LogScript.rowKey g t)).length ≤ 1) := by
  induction inserts with
  | nil => intro db h; exact h
  | cons r rest ih =>
    intro db h
    refine ih _ ?_
    intro g t
    rw [LogScript.filter_db_insert]
    by_cases hc : r.group_id = g ∧ r.trial_index = t
    · rw [if_pos hc]; simp
    · rw [if_neg hc]; exact h g t

theorem LogScript.applyInserts_getLast (g2 : Int) (t2 : Nat) :
    ∀ (inserts : List LogScript.Row) (db : List LogScript.Row) (r : LogScript.Row),
      (inserts.filter (LogScript.rowKey g2 t2)).getLast? = some r →
      (LogScript.applyInserts db inserts).filter (LogScript.rowKey g2 t2) = [r] := by
  intro inserts
  induction inserts with
  | nil => intro db r h; simp at h
  | cons x rest ih =>
    intro db r h
    rw [show LogScript.applyInserts db (x :: rest) =
        LogScript.applyInserts (LogScript.db_insert db x.group_id x.trial_index
          x.ts_command_send x.ts_keyboard_down x.duration) rest from rfl]
    rw [List.filter_cons] at h
    by_cases hx : LogScript.rowKey g2 t2 x = true
    · rw [if_pos hx] at h
      rcases hrest : rest.filter (LogScript.rowKey g2 t2) with _ | ⟨y, ys⟩
      · rw [hrest] at h
        have hxr : x = r := by simpa using h
        subst hxr
        have hnone : ∀ i ∈ rest, LogScript.rowKey g2 t2 i = false := by
          intro i hi
          by_contra hcon
          have hmem : i ∈ rest.filter (LogScript.rowKey g2 t2) :=
            List.mem_filter.mpr ⟨hi, by simpa using hcon⟩
          rw [hrest] at hmem
          simp at hmem
        rw [LogScript.applyInserts_filter_no_key g2 t2 rest _ hnone]
        rw [LogScript.filter_db_insert]
        have hc : x.group_id = g2 ∧ x.trial_index = t2 := by
          simpa [LogScript.rowKey] using hx
        rw [if_pos hc]
      · rw [hrest, List.getLast?_cons_cons] at h
        exact ih _ r (by rw [hrest]; exact h)
    · rw [if_neg hx] at h
      exact ih _ r h

/-- C9: the `vib_test` table keeps `(group_id, trial_index)` unique: with
`INSERT OR REPLACE` on the declared primary key, after any sequence of
`db_insert` calls there is at most one row per key, and the row for a key
that was inserted holds the values of the most recent insert for it. -/
theorem C9_primary_key_unique (inserts db : List LogScript.Row)
    (h : ∀ g t, ((db.filter (LogScript.rowKey g t)).length ≤ 1)) :
    (∀ g t, (((LogScript.applyInserts db inserts).filter
      (LogScript.rowKey g t)).length ≤ 1)) ∧
    (∀ g t r, (inserts.filter (LogScript.rowKey g t)).getLast? = some r →
      (LogScript.applyInserts db inserts).filter (LogScript.rowKey g t) = [r]) :=
  ⟨LogScript.applyInserts_unique inserts db h,
    fun g t r hr => LogScript.applyInserts_getLast g t inserts db r hr⟩

/-- Concrete run of C9: two inserts with the same key `(3, 1)` leave one
row, holding the later values. -/
theorem C9_primary_key_unique_witness :
    (((LogScript.applyInserts []
        [⟨3, 1, 0, 1, 1⟩, ⟨3, 1, 0, 2, 2⟩]).filter (LogScript.rowKey 3 1)).length ≤ 1) ∧
    (LogScript.applyInserts [] [⟨3, 1, 0, 1, 1⟩, ⟨3, 1, 0, 2, 2⟩]).filter
        (LogScript.rowKey 3 1) = [⟨3, 1, 0, 2, 2⟩] :=
  ⟨(C9_primary_key_unique [⟨3, 1, 0, 1, 1⟩, ⟨3, 1, 0, 2, 2⟩] [] (by simp)).1 3 1,
    (C9_primary_key_unique [⟨3, 1, 0, 1, 1⟩, ⟨3, 1, 0, 2, 2⟩] [] (by simp)).2 3 1
      ⟨3, 1, 0, 2, 2⟩ (by decide)⟩

theorem AckScript.vibLoop_mem (oracle : Nat → String) :
    ∀ (ms : List Nat) (k : Nat) (s : String), s ∈ AckScript.vibLoop oracle k ms →
      (∃ j, s = AckScript.ackLine "STOP" j) ∨
        ∃ m j, m ∈ ms ∧ s = AckScript.ackLine (AckScript.vibCmd m) j := by
  intro ms
  induction ms with
  | nil =>
    intro k s hs
    simp only [AckScript.vibLoop, List.mem_singleton] at hs
    exact Or.inl ⟨k, hs⟩
  | cons m rest ih =>
    intro k s hs
    simp only [AckScript.vibLoop] at hs
    by_cases he : pyStartsWith (oracle k) "ERR" = true
    · rw [if_pos he] at hs
      simp only [List.mem_singleton] at hs
      exact Or.inr ⟨m, k, by simp, hs⟩
    · rw [if_neg he] at hs
      rcases List.mem_cons.mp hs with h1 | h1
      · exact Or.inr ⟨m, k, by simp, h1⟩
      · rcases ih (k + 1) s h1 with h2 | ⟨m2, j2, hm2, hs2⟩
        · exact Or.inl h2
        · exact Or.inr ⟨m2, j2, by simp [hm2], hs2⟩

theorem mem_vocab_base :
    ∀ s ∈ ["X", "F 300 240 240", "S 1 80", "S 2 80", "S 4 80", "STOP"],
      ∃ c : Cmd, s = Cmd.render c := by
  intro s hs
  simp only [List.mem_cons, List.not_mem_nil, or_false] at hs
  rcases hs with rfl | rfl | rfl | rfl | rfl | rfl
  · exact ⟨Cmd.X, by decide⟩
  · exact ⟨Cmd.F 300 240 240, by decide⟩
  · exact ⟨Cmd.S 1 80, by decide⟩
  · exact ⟨Cmd.S 2 80, by decide⟩
  · exact ⟨Cmd.S 4 80, by decide⟩
  · exact ⟨Cmd.STOP, by decide⟩

/-- C4: every command line any script sends belongs to the fixed
vocabulary `S <mask> <amp>`, `X`, `F <f1> <f2> <f3>`,
`VIB m=... amp=... n=... on=... off=... gap=... mode=...`, `STOP`; only
the acknowledged-command script appends an ` id=<n>` suffix, and there
every sent line is a vocabulary command plus such a suffix. -/
theorem C4_command_vocabulary :
    (∀ s ∈ UdpScript.main_sent, ∃ c : Cmd, s = Cmd.render c) ∧
    (∀ s ∈ OkScript.main_sent, ∃ c : Cmd, s = Cmd.render c) ∧
    (∀ trials, ∀ s ∈ LogScript.main_sent trials, ∃ c : Cmd, s = Cmd.render c) ∧
    (∀ (oracle : Nat → String) (cycles : Nat),
      ∀ s ∈ AckScript.main_sent oracle cycles,
        ∃ (c : Cmd) (j : Nat), s = Cmd.render c ++ " id=" ++ toString j) := by
  have hvib : ∀ m, m = 1 ∨ m = 2 ∨ m = 3 →
      AckScript.vibCmd m = Cmd.render (Cmd.VIB m 80 1 100 0 2000 "OVR") := by
    intro m hm
    rcases hm with rfl | rfl | rfl <;> decide
  refine ⟨?_, ?_, ?_, ?_⟩
  · intro s hs
    refine mem_vocab_base s ?_
    have hsub : ∀ x ∈ UdpScript.main_sent,
        x ∈ ["X", "F 300 240 240", "S 1 80", "S 2 80", "S 4 80", "STOP"] := by decide
    exact hsub s hs
  · intro s hs
    refine mem_vocab_base s ?_
    have hsub : ∀ x ∈ OkScript.main_sent,
        x ∈ ["X", "F 300 240 240", "S 1 80", "S 2 80", "S 4 80", "STOP"] := by decide
    exact hsub s hs
  · intro trials s hs
    refine mem_vocab_base s ?_
    simp only [LogScript.main_sent, List.mem_append, List.mem_cons, List.not_mem_nil,
      or_false, List.mem_flatMap] at hs
    rcases hs with (hh | ⟨a, ha, hs2⟩) | rfl
    · rcases hh with rfl | rfl | rfl | rfl <;> decide
    · rcases hs2 with rfl | rfl <;> decide
    · decide
  · intro oracle cycles s hs
    rcases List.mem_cons.mp hs with h1 | h1
    · exact ⟨Cmd.STOP, 1, h1⟩
    · rcases AckScript.vibLoop_mem oracle _ 2 s h1 with ⟨j, hj⟩ | ⟨m, j, hm, hj⟩
      · exact ⟨Cmd.STOP, j, hj⟩
      · have hm123 : m = 1 ∨ m = 2 ∨ m = 3 := by
          rcases List.mem_flatMap.mp hm with ⟨_, _, hmm⟩
          simpa using hmm
        refine ⟨Cmd.VIB m 80 1 100 0 2000 "OVR", j, ?_⟩
        rw [hj, AckScript.ackLine, hvib m hm123]

/-- Concrete run of C4: the literal `X` is in the vocabulary, and the
first `VIB` line of an acknowledged run carries an ` id=2` suffix over a
vocabulary command. -/
theorem C4_command_vocabulary_witness :
    (∃ c : Cmd, "X" = Cmd.render c) ∧
    (∃ (c : Cmd) (j : Nat),
      AckScript.ackLine (AckScript.vibCmd 1) 2 = Cmd.render c ++ " id=" ++ toString j) :=
  ⟨C4_command_vocabulary.1 "X" (by decide),
    C4_command_vocabulary.2.2.2 (fun _ => "ACK") 1
      (AckScript.ackLine (AckScript.vibCmd 1) 2) (by decide)⟩

